import Mathlib

/-
Verification development for the mincraft image builder.

The repository contains two iterations of the tool:
  * `src/mincraft.py`            — referred to below as the "v1" iteration;
  * `src/mincraft/mincraft.py`   — referred to below as the "v2" iteration.

The on-disk state that the pipeline manipulates (the staged root filesystem
under `.cache/rootfs`, the marker directory `.installed_pkgs` inside it, the
packed initramfs file, the ESP staging directory and the ESP image file) is
modelled as a tree of named files and directories, with file contents as
strings.  External tools (tar, dpkg data extraction, cpio, objcopy, parted,
mkfs, losetup, mount) are modelled at their interface: the byte-level work
they do is out of scope (spec §1), only their sequencing, their effect on the
modelled tree and their success/failure behaviour is represented.
-/

namespace Mincraft

/-- A node of the modelled filesystem: a regular file with its content, or a
directory with a list of named entries (the entry list is kept in a canonical
order; `os.listdir` order is irrelevant because `filecmp.dircmp` sorts it). -/
inductive FTree where
  | file (content : String)
  | dir (entries : List (String × FTree))

/-- First-occurrence association-list lookup (used both for directory entries
and for the package cache). -/
def assocLookup {α : Type} : List (String × α) → String → Option α
  | [], _ => none
  | (k, v) :: rest, name => if k = name then some v else assocLookup rest name

/-- Replace the first entry with the given key, or append the entry at the end
when the key is absent (a new file appears at the end of the canonical entry
order). -/
def setEntry {α : Type} : List (String × α) → String → α → List (String × α)
  | [], name, v => [(name, v)]
  | (k, w) :: rest, name, v =>
      if k = name then (name, v) :: rest else (k, w) :: setEntry rest name v

/-- Remove every entry with the given key (models `os.unlink`). -/
def removeEntry {α : Type} (es : List (String × α)) (name : String) :
    List (String × α) :=
  es.filter (fun e => e.1 ≠ name)

/-- The entries of a directory node (a file has none). -/
def entriesOf : FTree → List (String × FTree)
  | .file _ => []
  | .dir es => es

/-- Resolve a relative path inside a tree. -/
def lookupPath : List String → FTree → Option FTree
  | [], t => some t
  | _ :: _, .file _ => none
  | n :: rest, .dir es =>
      match assocLookup es n with
      | some c => lookupPath rest c
      | none => none

/-- Does the path resolve to a regular file? (`os.path.isfile`) -/
def isFilePath (t : FTree) (p : List String) : Bool :=
  match lookupPath p t with
  | some (.file _) => true
  | _ => false

/-- Does the path resolve to a directory? (`os.path.isdir`) -/
def isDirPath (t : FTree) (p : List String) : Bool :=
  match lookupPath p t with
  | some (.dir _) => true
  | _ => false

/-- Read a file's content at a path. -/
def readFile (t : FTree) (p : List String) : Option String :=
  match lookupPath p t with
  | some (.file c) => some c
  | _ => none

/-- Place a node at a path, creating intermediate directories (tar extraction
and `shutil.copyfile` overwrite whatever is in the way, so an intermediate
non-directory is replaced by a directory). -/
def writePath : List String → FTree → FTree → FTree
  | [], node, _ => node
  | n :: rest, node, t =>
      let es := entriesOf t
      let child := match assocLookup es n with
        | some c => c
        | none => FTree.dir []
      .dir (setEntry es n (writePath rest node child))

/-- Remove the entry at a path if it is present (`os.unlink`). -/
def removePath : List String → FTree → FTree
  | [], t => t
  | [n], t =>
      match t with
      | FTree.dir es => FTree.dir (removeEntry es n)
      | FTree.file c => FTree.file c
  | n :: m :: rest, t =>
      match t with
      | FTree.dir es =>
          match assocLookup es n with
          | some c => FTree.dir (setEntry es n (removePath (m :: rest) c))
          | none => FTree.dir es
      | FTree.file c => FTree.file c

/-- `os.makedirs(..., exist_ok=True)`: create the directories along a path when
they are missing; an existing entry (of any kind) is left alone. -/
def ensureDirs : List String → FTree → FTree
  | [], t => t
  | n :: rest, t =>
      let es := entriesOf t
      let child := match assocLookup es n with
        | some c => c
        | none => FTree.dir []
      .dir (setEntry es n (ensureDirs rest child))

/-- `os.close(os.open(path, os.O_CREAT))`: create an empty file when none
exists; an existing file is left untouched (O_CREAT without O_TRUNC). -/
def touchFile (p : List String) (t : FTree) : FTree :=
  if isFilePath t p then t else writePath p (FTree.file "") t

mutual
/-- `shutil.copytree(src, dst, dirs_exist_ok=True)`: merge the source tree into
the destination, source files overwriting destination files at matching paths.
A type conflict (directory over file or file over directory), on which copytree
would raise, is modelled as the source node replacing the destination node. -/
def mergeTree : FTree → FTree → FTree
  | _, .file c => .file c
  | dst, .dir ses => .dir (mergeInto (entriesOf dst) ses)

/-- Copy the source entries one by one into the destination entry list. -/
def mergeInto : List (String × FTree) → List (String × FTree) →
    List (String × FTree)
  | des, [] => des
  | des, (n, st) :: rest =>
      let newChild := match assocLookup des n with
        | some d => mergeTree d st
        | none => mergeTree (FTree.dir []) st
      mergeInto (setEntry des n newChild) rest
end

/-- Split a character list at a separator character. -/
def splitCharAux (sep : Char) : List Char → List Char → List (List Char)
  | [], acc => [acc.reverse]
  | c :: rest, acc =>
      if c = sep then acc.reverse :: splitCharAux sep rest []
      else splitCharAux sep rest (c :: acc)

/-- Split a slash-separated path string into its components. -/
def splitPath (s : String) : List String :=
  (splitCharAux '/' s.toList []).map List.asString

/-- `os.path.basename` for a POSIX path: the part after the final slash. -/
def basenameStr (p : String) : String :=
  (splitPath p).getLastD ""

mutual
/-- Deterministic serialization of a tree, modelling the byte stream produced
by `find . | cpio -o -H newc` over the staged rootfs. -/
def cpioTree : FTree → String
  | .file c => "f:" ++ c
  | .dir es => "d:" ++ cpioEntries es

/-- Serialize a directory entry list. -/
def cpioEntries : List (String × FTree) → String
  | [] => ""
  | (n, t) :: rest => n ++ "(" ++ cpioTree t ++ ")" ++ cpioEntries rest
end

/-! ## Gzip probe-and-fallback

`open_kernel` / `open_initrd` (v2, `src/mincraft/mincraft.py` lines 204-225)
attempt gzip decompression and fall back to a raw copy on `BadGzipFile`.
Only the two-byte gzip magic decides which branch is taken; the external
decompression itself is modelled as stripping the magic prefix. -/

/-- The two gzip magic bytes, 0x1f 0x8b. -/
def gzipMagic : List Char := ['\x1f', '\x8b']

/-- Does one character list start with another? -/
def hasMagic : List Char → List Char → Bool
  | [], _ => true
  | _ :: _, [] => false
  | m :: ms, c :: cs => m = c && hasMagic ms cs

/-- Does the file content carry the gzip magic? -/
def isGzipped (c : String) : Bool := hasMagic gzipMagic c.toList

/-- External gzip decompression, modelled as stripping the magic. -/
def gunzip (c : String) : String := (c.toList.drop 2).asString

/-- v2 `open_kernel`: probe gzip, fall back to the raw content. -/
def open_kernel (c : String) : String := if isGzipped c then gunzip c else c

/-- v2 `open_initrd`: same probe-and-fallback as `open_kernel`. -/
def open_initrd (c : String) : String := if isGzipped c then gunzip c else c

/-! ## System state and the v2 build pipeline

Paths inside the staged rootfs are relative to `ROOTFS_DIR`; the initramfs
archive `INITRD_FILENAME`, the ESP staging directory `ESP_DIR` and the image
file `ESP_FILENAME` live outside the rootfs and are separate fields. -/

/-- The marker directory inside the staged rootfs. -/
def markerDirName : String := ".installed_pkgs"

/-- Marker recording that the base archive has been extracted. -/
def baseMarkerPath : List String := [markerDirName, ".base"]

/-- The in-progress initramfs pack lock marker. -/
def lockPath : List String := [markerDirName, ".initramfs"]

/-- The content of the ESP image file `.cache/esp.img`: either a FAT image
packed from the ESP staging tree (`pack_esp`), or the partitioned firmware
image written by the EfiBootGuard variant. -/
inductive EspImage where
  | fat (tree : FTree)
  | firmware

/-- The on-disk state the tool manipulates: the staged rootfs tree, the packed
initramfs file `.cache/initrd.img` (`none` = absent), the ESP staging
directory `.cache/esp` (`none` = absent) and the ESP image `.cache/esp.img`. -/
structure SysState where
  rootfs : FTree
  initrd : Option String
  espDir : Option FTree
  espImg : Option EspImage

/-- A fetched Debian package: its control name and its data members
(path components inside the rootfs, content). -/
structure Package where
  name : String
  members : List (List String × String)

/-- A build configuration, after the external fetch/resolve collaborators have
produced the archives: the base archive members, the ordered packages and the
ordered overlay directory trees. -/
structure Config where
  base : List (List String × String)
  pkgs : List Package
  overlays : List FTree

/-- v2 `extract_rootfs`: ensure the rootfs and marker directories exist, skip
when the `.base` marker file is present, otherwise extract every member and
create the marker.  Returns whether the tree was mutated. -/
def extract_rootfs (members : List (List String × String)) (t : FTree) :
    FTree × Bool :=
  let t := ensureDirs [markerDirName] t
  if isFilePath t baseMarkerPath then (t, false)
  else
    let t := members.foldl (fun acc m => writePath m.1 (FTree.file m.2) acc) t
    (touchFile baseMarkerPath t, true)

/-- v2 `install_package`: skip when the package's marker file is present,
otherwise extract the data members and create the marker. -/
def install_package (p : Package) (t : FTree) : FTree × Bool :=
  let t := ensureDirs [markerDirName] t
  if isFilePath t [markerDirName, p.name] then (t, false)
  else
    let t := p.members.foldl (fun acc m => writePath m.1 (FTree.file m.2) acc) t
    (touchFile [markerDirName, p.name] t, true)

/-- v2 `copy_overlay` (`src/mincraft/mincraft.py` lines 170-178): a
`filecmp.dircmp` is computed but its result is never used — the overlay is
unconditionally copied wholesale onto the rootfs and `True` is returned. -/
def copy_overlay_v2 (rootfs overlay : FTree) : FTree × Bool :=
  (mergeTree rootfs overlay, true)

/-- The names of the top-level entries of a directory (`dircmp.left_list`;
dircmp sorts `os.listdir`, the canonical entry order stands in for that). -/
def topNames (t : FTree) : List String := (entriesOf t).map Prod.fst

/-- Is the named top-level entry a regular file? -/
def topIsFile (t : FTree) (n : String) : Bool :=
  match assocLookup (entriesOf t) n with
  | some (.file _) => true
  | _ => false

/-- Content of the named top-level entry when it is a regular file. -/
def topContent (t : FTree) (n : String) : Option String :=
  match assocLookup (entriesOf t) n with
  | some (.file c) => some c
  | _ => none

/-- `dircmp(l, r).common_files`: names common to both sides that are regular
files on both sides (order follows `left_list`). -/
def dircmpCommonFiles (l r : FTree) : List String :=
  (topNames l).filter (fun n => topIsFile l n && topIsFile r n)

/-- `dircmp(l, r).diff_files`: the common files whose comparison differs.  The
library's default shallow `os.stat` comparison is modelled as a content
comparison. -/
def dircmpDiffFiles (l r : FTree) : List String :=
  (dircmpCommonFiles l r).filter (fun n => topContent l n ≠ topContent r n)

/-- v1 `copy_overlay` (`src/mincraft.py` lines 96-105): compare the overlay
(left) against the rootfs (right); copy, and report a change, exactly when
some common top-level file differs or some top-level overlay entry is not a
common file. -/
def copy_overlay_v1 (rootfs overlay : FTree) : FTree × Bool :=
  if dircmpDiffFiles overlay rootfs ≠ [] ∨
      topNames overlay ≠ dircmpCommonFiles overlay rootfs then
    (mergeTree rootfs overlay, true)
  else (rootfs, false)

/-- v2 `run_depmod`: invokes the external `depmod` tool, which regenerates
module dependency files inside the staged tree deterministically from the
tree's own modules; modelled as the identity on the tree. -/
def run_depmod (t : FTree) : FTree := t

/-- v2 `pack_initramfs` (lines 180-192): create the lock marker
(`O_CREAT`, content preserved if the file exists), run the external
`find | cpio | pv` pipeline with `check=True`, and unlink the lock only after
the pipeline succeeded.  `cpioOk` is the external pipeline's outcome; on
failure `subprocess.run` raises, the unlink is never reached and the shell
redirection has already truncated the archive file (modelled as empty
content).  Returns the new state and whether packing completed. -/
def pack_initramfs (cpioOk : Bool) (s : SysState) : SysState × Bool :=
  let t1 := touchFile lockPath s.rootfs
  if cpioOk then
    ({ s with rootfs := removePath lockPath t1, initrd := some (cpioTree t1) },
      true)
  else
    ({ s with rootfs := t1, initrd := some "" }, false)

/-- v2 `is_initramfs_pack_incomplete` (lines 195-197): the lock marker exists
or the archive file is missing. -/
def is_initramfs_pack_incomplete (s : SysState) : Bool :=
  isFilePath s.rootfs lockPath || s.initrd.isNone

/-- v2 `is_esp_created` (lines 200-201): the ESP directory exists and the ESP
image file exists. -/
def is_esp_created (s : SysState) : Bool :=
  s.espDir.isSome && s.espImg.isSome

/-- One iteration of the package loop of v2 `main`:
`has_changes |= install_package(f)`. -/
def installStep (acc : FTree × Bool) (p : Package) : FTree × Bool :=
  let r := install_package p acc.1
  (r.1, acc.2 || r.2)

/-- The package-install loop of v2 `main`, in configuration order. -/
def runInstalls (pkgs : List Package) (t : FTree) : FTree × Bool :=
  pkgs.foldl installStep (t, false)

/-- One iteration of the overlay loop of v2 `main`:
`has_changes |= copy_overlay(o)`. -/
def overlayStep (acc : FTree × Bool) (ov : FTree) : FTree × Bool :=
  let r := copy_overlay_v2 acc.1 ov
  (r.1, acc.2 || r.2)

/-- The overlay loop of v2 `main`, in configuration order. -/
def runOverlays (overlays : List FTree) (t : FTree) : FTree × Bool :=
  overlays.foldl overlayStep (t, false)

/-- Result of one run of the v2 staging pipeline. -/
structure RunResult where
  state : SysState
  changed : Bool
  packed : Bool

/-- The three staging stages of v2 `main` in order — extract the base, install
the packages, apply the overlays — with `has_changes` the logical OR across
them. -/
def runStages (cfg : Config) (t : FTree) : FTree × Bool :=
  let r1 := extract_rootfs cfg.base t
  let r2 := runInstalls cfg.pkgs r1.1
  let r3 := runOverlays cfg.overlays r2.1
  (r3.1, r1.2 || r2.2 || r3.2)

/-- The v2 staging pipeline (`main`, lines 498-510): run the stages, then
repack the initramfs (after `run_depmod`) precisely when a stage reported a
change or the previous pack is detected incomplete.  `cpioOk` is the outcome
of the external cpio pipeline when packing is invoked. -/
def runPipelineV2 (cfg : Config) (cpioOk : Bool) (s : SysState) : RunResult :=
  let r := runStages cfg s.rootfs
  let s3 := { s with rootfs := r.1 }
  if r.2 || is_initramfs_pack_incomplete s3 then
    let s4 := { s3 with rootfs := run_depmod s3.rootfs }
    ⟨(pack_initramfs cpioOk s4).1, r.2, true⟩
  else ⟨s3, r.2, false⟩

/-! ## Benign configurations

The pipeline invariants quantify over configurations whose archives and
overlays do not reach into the completion-marker directory `.installed_pkgs`
(an archive member or overlay entry placed there would clobber the marker
bookkeeping itself). -/

/-- An archive member path that stays clear of the marker directory. -/
def benignPath (p : List String) : Bool :=
  !p.isEmpty && p.headD "" != markerDirName

/-- All member paths of an archive are benign. -/
def benignMembers (ms : List (List String × String)) : Bool :=
  ms.all fun m => benignPath m.1

/-- An overlay directory whose top-level entries stay clear of the marker
directory. -/
def benignOverlay (ov : FTree) : Bool :=
  match ov with
  | .dir ses => ses.all fun e => e.1 != markerDirName
  | .file _ => false

/-- A configuration whose base archive, packages and overlays stay clear of
the marker directory, and whose package names do not collide with the
initramfs lock marker. -/
def BenignCfg (cfg : Config) : Prop :=
  benignMembers cfg.base = true ∧
  (∀ p ∈ cfg.pkgs, benignMembers p.members = true ∧ p.name ≠ ".initramfs") ∧
  ∀ ov ∈ cfg.overlays, benignOverlay ov = true

instance (cfg : Config) : Decidable (BenignCfg cfg) := by
  unfold BenignCfg; infer_instance

/-- The agreement v1 `copy_overlay` tests for: every top-level overlay entry
is a regular file that also exists, with identical content, as a top-level
regular file of the rootfs. -/
def overlayAgrees (overlay rootfs : FTree) : Prop :=
  ∀ n ∈ topNames overlay,
    topIsFile overlay n = true ∧ topIsFile rootfs n = true ∧
      topContent overlay n = topContent rootfs n

instance (overlay rootfs : FTree) : Decidable (overlayAgrees overlay rootfs) := by
  unfold overlayAgrees; infer_instance

/-! ## Boot assembly: shared pieces -/

/-- Ways in which a boot-assembly run aborts with a nonzero process exit:
explicit `sys.exit(1)` calls and uncaught Python exceptions. -/
inductive BuildErr where
  | missingPackages (pkgs : List String)
  | keyError (key : String)
  | fileNotFound (path : List String)
  | badGzip (path : List String)
  | toolFailed (tool : String)
  | unsupportedArch (arch : String)
  | crossCompileUnsupported
deriving DecidableEq

/-- The v2 `EFI_ARCH_SUFFIXES` dictionary; an unknown architecture raises
`KeyError`, modelled as `none`. -/
def EFI_ARCH_SUFFIXES (arch : String) : Option String :=
  match arch with
  | "amd64" => some "x64"
  | "x86_64" => some "x64"
  | "arm64" => some "aa64"
  | "aarch64" => some "aa64"
  | _ => none

/-- v1 `require_packages` (`src/mincraft.py` lines 132-141): collect the set of
requested packages whose installation marker is absent; a nonempty result is a
user-visible error naming the missing packages followed by `sys.exit(1)`. -/
def require_packages (t : FTree) (packages : List String) : List String :=
  packages.dedup.filter fun p => !isFilePath t [markerDirName, p]

/-- `/etc/os-release` inside the staged tree. -/
def osrelPath : List String := ["etc", "os-release"]

/-- v2 systemd stub location inside the staged tree, per EFI architecture. -/
def stubTreePathV2 (sfx : String) : List String :=
  ["lib", "systemd", "boot", "efi", "linux" ++ sfx ++ ".efi.stub"]

/-- v1 systemd stub location (hard-coded aarch64). -/
def stubTreePathV1 : List String :=
  ["lib", "systemd", "boot", "efi", "linuxaa64.efi.stub"]

/-- The ESP-relative destination of the v2 boot executable for a given
architecture (`ESP_DIR/efi/boot/boot{suffix}.efi`). -/
def stubDstPathV2 (arch : String) : Option (List String) :=
  (EFI_ARCH_SUFFIXES arch).map fun sfx => ["efi", "boot", "boot" ++ sfx ++ ".efi"]

/-- The `objcopy` argument vector of the v2 systemd-stub build
(`src/mincraft/mincraft.py` lines 268-292); the file arguments are the
temporary/staged input paths. -/
def objcopy_args_v2 (osrel cmdlineFile kernelFile initrdFile stub dst : String) :
    List String :=
  ["objcopy",
   "--add-section", ".osrel=" ++ osrel,
   "--change-section-vma", ".osrel=0x20000",
   "--add-section", ".cmdline=" ++ cmdlineFile,
   "--change-section-vma", ".cmdline=0x30000",
   "--add-section", ".linux=" ++ kernelFile,
   "--change-section-vma", ".linux=0x2000000",
   "--add-section", ".initrd=" ++ initrdFile,
   "--change-section-vma", ".initrd=0x3000000",
   stub, dst]

/-- The `objcopy` argument vector of the v1 systemd-stub build
(`src/mincraft.py` lines 182-210), which additionally embeds the dumped
device tree at 0x40000. -/
def objcopy_args_v1 (osrel cmdlineFile kernelFile initrdFile stub dst : String) :
    List String :=
  ["objcopy",
   "--add-section", ".osrel=" ++ osrel,
   "--change-section-vma", ".osrel=0x20000",
   "--add-section", ".cmdline=" ++ cmdlineFile,
   "--change-section-vma", ".cmdline=0x30000",
   "--add-section", ".dtb=.cache/virt.dtb",
   "--change-section-vma", ".dtb=0x40000",
   "--add-section", ".linux=" ++ kernelFile,
   "--change-section-vma", ".linux=0x2000000",
   "--add-section", ".initrd=" ++ initrdFile,
   "--change-section-vma", ".initrd=0x3000000",
   stub, dst]

/-- Characters of a section specification before the `=` separator. -/
def takeUntilEq : List Char → List Char
  | [] => []
  | c :: rest => if c = '=' then [] else c :: takeUntilEq rest

/-- Characters of a section specification after the first `=` separator. -/
def dropThroughEq : List Char → List Char
  | [] => []
  | c :: rest => if c = '=' then rest else dropThroughEq rest

/-- The section name of a `name=value` specification. -/
def sectionNameOf (spec : String) : String := (takeUntilEq spec.toList).asString

/-- The value of a `name=value` specification. -/
def sectionValueOf (spec : String) : String := (dropThroughEq spec.toList).asString

/-- The names of the sections an `objcopy` invocation adds
(the specification following each `--add-section`). -/
def addedSectionNames : List String → List String
  | "--add-section" :: spec :: rest => sectionNameOf spec :: addedSectionNames rest
  | _ :: rest => addedSectionNames rest
  | [] => []

/-- The `--change-section-vma` assignments of an `objcopy` invocation. -/
def changedVmas : List String → List (String × String)
  | "--change-section-vma" :: spec :: rest =>
      (sectionNameOf spec, sectionValueOf spec) :: changedVmas rest
  | _ :: rest => changedVmas rest
  | [] => []

/-- Numeric value of one hexadecimal digit. -/
def hexDigitVal (c : Char) : ℕ :=
  if c.isDigit then c.toNat - 48
  else if 'a' ≤ c ∧ c ≤ 'f' then c.toNat - 87
  else if 'A' ≤ c ∧ c ≤ 'F' then c.toNat - 55
  else 0

/-- Read a `0x`-prefixed hexadecimal literal. -/
def readHex (s : String) : ℕ :=
  (s.toList.drop 2).foldl (fun a c => 16 * a + hexDigitVal c) 0

/-- The virtual memory address an `objcopy` invocation assigns to a section. -/
def sectionVma (args : List String) (name : String) : Option ℕ :=
  (assocLookup (changedVmas args) name).map readHex

/-- The output file the external `objcopy` writes: the stub binary with the
named sections embedded; the byte-level layout is out of scope and the output
is modelled as a deterministic serialization of the inputs. -/
def objcopyOutput (stub : String) (sections : List (String × String)) : String :=
  stub ++ String.join (sections.map fun sec => "[" ++ sec.1 ++ "]" ++ sec.2)

/-- v2 `pack_esp` (lines 433-455): truncate `.cache/esp.img`, `mkfs.vfat` it,
then `mmd`/`mcopy` every directory and file of the ESP staging tree into it;
the FAT image contents are modelled as the staged tree itself. -/
def pack_esp (espDir : FTree) : EspImage := EspImage.fat espDir

/-! ## Boot assembly: the three v2 variants and the two v1 variants -/

/-- v2 `build_esp_systemd_stub` (lines 228-295).  Note: unlike v1, no
`require_packages` check is performed — the function goes straight to the
staged files.  Failure cases: `KeyError` on an unknown architecture, a missing
kernel or initramfs file, and `objcopy` (run with `check=True`) failing when
its os-release or stub input is missing. -/
def build_esp_systemd_stub_v2 (arch kernel_filename cmdline : String)
    (s : SysState) : Except BuildErr SysState :=
  match EFI_ARCH_SUFFIXES arch with
  | none => .error (.keyError arch)
  | some sfx =>
    let esp0 := ensureDirs ["efi", "boot"] (s.espDir.getD (FTree.dir []))
    match readFile s.rootfs (splitPath kernel_filename) with
    | none => .error (.fileNotFound (splitPath kernel_filename))
    | some kc =>
      let kernelOut := open_kernel kc
      let esp1 := writePath ["efi", "boot", "vmlinux"] (FTree.file kernelOut) esp0
      match s.initrd with
      | none => .error (.fileNotFound ["initrd.img"])
      | some ic =>
        let initrdOut := open_initrd ic
        let esp2 := writePath ["efi", "boot", "initrd.gz"] (FTree.file ic) esp1
        let esp3 := writePath ["efi", "boot", "initrd"] (FTree.file initrdOut) esp2
        match readFile s.rootfs osrelPath, readFile s.rootfs (stubTreePathV2 sfx) with
        | some osrel, some stub =>
            let out := objcopyOutput stub
              [(".osrel", osrel), (".cmdline", cmdline),
               (".linux", kernelOut), (".initrd", initrdOut)]
            let esp4 :=
              writePath ["efi", "boot", "boot" ++ sfx ++ ".efi"] (FTree.file out) esp3
            .ok { s with espDir := some esp4, espImg := some (pack_esp esp4) }
        | _, _ => .error (.toolFailed "objcopy")

/-- The generated `efi/ubuntu/grub.cfg` content. -/
def grubCfgContent (cmdline : String) : String :=
  "\n# autogenerated by mincraft -- please do not modify directly\nmenuentry \"MinOS\" \x7b\n    linux /efi/ubuntu/vmlinuz " ++
    cmdline ++ "\n    initrd /efi/ubuntu/initrd.gz\n\x7d\n"

/-- The copy step of `build_esp_grub`: copy the source content to the ESP
destination unless an identical file is already there (`filecmp.cmp`,
modelled as content comparison). -/
def copyIfDifferent (content : String) (dst : List String) (esp : FTree) :
    FTree :=
  match readFile esp dst with
  | some existing =>
      if existing = content then esp else writePath dst (FTree.file content) esp
  | none => writePath dst (FTree.file content) esp

/-- v2 `build_esp_grub` (lines 297-330).  Note: unlike v1, no
`require_packages` check is performed.  Copies the monolithic grub binary, the
kernel and the packed initramfs into the ESP tree (skipping byte-identical
destinations), writes `grub.cfg`, and packs the FAT image. -/
def build_esp_grub_v2 (arch kernel_filename cmdline : String) (s : SysState) :
    Except BuildErr SysState :=
  match EFI_ARCH_SUFFIXES arch with
  | none => .error (.keyError arch)
  | some sfx =>
    let grubSrcPath :=
      ["usr", "lib", "grub", arch ++ "-efi", "monolithic", "grub" ++ sfx ++ ".efi"]
    match readFile s.rootfs grubSrcPath with
    | none => .error (.fileNotFound grubSrcPath)
    | some grubBin =>
      let esp0 := s.espDir.getD (FTree.dir [])
      let esp1 := copyIfDifferent grubBin ["efi", "boot", "boot" ++ sfx ++ ".efi"] esp0
      match readFile s.rootfs (splitPath kernel_filename) with
      | none => .error (.fileNotFound (splitPath kernel_filename))
      | some kc =>
        let esp2 := copyIfDifferent kc ["efi", "ubuntu", "vmlinuz"] esp1
        match s.initrd with
        | none => .error (.fileNotFound ["initrd.img"])
        | some ic =>
          let esp3 := copyIfDifferent ic ["efi", "ubuntu", "initrd.gz"] esp2
          let esp4 :=
            writePath ["efi", "ubuntu", "grub.cfg"]
              (FTree.file (grubCfgContent cmdline)) esp3
          .ok { s with espDir := some esp4, espImg := some (pack_esp esp4) }

/-- v2 `build_esp_efibootguard`, entry checks and overall outcome (lines
333-353): only arm64 is supported (`sys.exit(1)` otherwise), and a missing
prebuilt bootloader binary on a non-aarch64 host is an actionable fatal error.
The partition layout is `partition_start`/`partition_end` below and the
post-attach loop-device phase is `ebgPostAttach` below; the resulting
`.cache/esp.img` is the partitioned firmware image. -/
def build_esp_efibootguard_v2 (arch : String)
    (hostIsAarch64 bootguardBinaryPresent : Bool) (s : SysState) :
    Except BuildErr SysState :=
  if arch ≠ "arm64" then .error (.unsupportedArch arch)
  else if !bootguardBinaryPresent && !hostIsAarch64 then
    .error .crossCompileUnsupported
  else .ok { s with espImg := some EspImage.firmware }

/-- v1 `build_esp_systemd_stub` (`src/mincraft.py` lines 144-210): first
`require_packages('systemd')`, then `gzip.open` the kernel with no raw
fallback (a non-gzip kernel raises `BadGzipFile`), dump the device tree
(`subprocess.run` without `check`, modelled as succeeding), and run `objcopy`
with the five sections of `objcopy_args_v1`. -/
def build_esp_systemd_stub_v1 (kernel_filename cmdline : String) (s : SysState) :
    Except BuildErr SysState :=
  let missing := require_packages s.rootfs ["systemd"]
  if missing ≠ [] then .error (.missingPackages missing)
  else
    match readFile s.rootfs (splitPath kernel_filename) with
    | none => .error (.fileNotFound (splitPath kernel_filename))
    | some kc =>
      if !isGzipped kc then .error (.badGzip (splitPath kernel_filename))
      else
        let kernelOut := gunzip kc
        match readFile s.rootfs osrelPath, readFile s.rootfs stubTreePathV1 with
        | some osrel, some stub =>
            match s.initrd with
            | none => .error (.toolFailed "objcopy")
            | some ic =>
              let esp0 := ensureDirs ["efi", "boot"] (s.espDir.getD (FTree.dir []))
              let out := objcopyOutput stub
                [(".osrel", osrel), (".cmdline", cmdline), (".dtb", "virt.dtb"),
                 (".linux", kernelOut), (".initrd", ic)]
              let esp1 :=
                writePath ["efi", "boot", "bootaa64.efi"] (FTree.file out) esp0
              .ok { s with espDir := some esp1 }
        | _, _ => .error (.toolFailed "objcopy")

/-- v1 `build_esp_grub` (`src/mincraft.py` lines 213-239): first
`require_packages('grub-efi-arm64-signed')`, then the same
copy-unless-identical loop and `grub.cfg` generation as v2, against the signed
arm64 grub binary; v1 has no FAT image packing step. -/
def build_esp_grub_v1 (kernel_filename cmdline : String) (s : SysState) :
    Except BuildErr SysState :=
  let missing := require_packages s.rootfs ["grub-efi-arm64-signed"]
  if missing ≠ [] then .error (.missingPackages missing)
  else
    let grubSrcPath := ["usr", "lib", "grub", "arm64-efi-signed", "grubaa64.efi.signed"]
    match readFile s.rootfs grubSrcPath with
    | none => .error (.fileNotFound grubSrcPath)
    | some grubBin =>
      let esp0 := s.espDir.getD (FTree.dir [])
      let esp1 := copyIfDifferent grubBin ["efi", "boot", "bootaa64.efi"] esp0
      match readFile s.rootfs (splitPath kernel_filename) with
      | none => .error (.fileNotFound (splitPath kernel_filename))
      | some kc =>
        let esp2 := copyIfDifferent kc ["efi", "ubuntu", "vmlinuz"] esp1
        match s.initrd with
        | none => .error (.fileNotFound ["initrd.gz"])
        | some ic =>
          let esp3 := copyIfDifferent ic ["efi", "ubuntu", "initrd.gz"] esp2
          let esp4 :=
            writePath ["efi", "ubuntu", "grub.cfg"]
              (FTree.file (grubCfgContent cmdline)) esp3
          .ok { s with espDir := some esp4 }

/-! ## The boot stage of `main` -/

/-- A stderr diagnostic surfaced by the boot stage of `main`. -/
inductive Diag where
  | buildFailed (e : BuildErr)
  | unsupportedBootMechanism (mech : String)
deriving DecidableEq

/-- The outcome of the boot stage of `main`: the final state, the stderr
diagnostics, and the process exit code. -/
structure DispatchResult where
  state : SysState
  stderr : List Diag
  exitCode : ℕ

/-- Fold a build outcome into `main`'s behaviour: success continues and the
process later exits 0; a fatal build error surfaces one diagnostic and the
process exits nonzero (ESP writes already performed on the failing path are
not retained by the model). -/
def buildOutcome (s : SysState) : Except BuildErr SysState → DispatchResult
  | .ok s2 => ⟨s2, [], 0⟩
  | .error e => ⟨s, [Diag.buildFailed e], 1⟩

/-- v2 `main`, lines 512-524: when the ESP is not yet created, dispatch on the
configured mechanism tag.  The final `else` branch prints
`error: unsupported boot mechanism` naming the tag to stderr — and then falls
through: `main` returns normally, so the process exits 0. -/
def dispatch_boot_v2 (mech arch kernel cmdline : String)
    (hostIsAarch64 bootguardBinaryPresent : Bool) (s : SysState) :
    DispatchResult :=
  if is_esp_created s then ⟨s, [], 0⟩
  else
    match mech with
    | "grub" => buildOutcome s (build_esp_grub_v2 arch kernel cmdline s)
    | "systemd-stub" =>
        buildOutcome s (build_esp_systemd_stub_v2 arch kernel cmdline s)
    | "efibootguard" =>
        buildOutcome s
          (build_esp_efibootguard_v2 arch hostIsAarch64 bootguardBinaryPresent s)
    | _ => ⟨s, [Diag.unsupportedBootMechanism mech], 0⟩

/-- v1 `main`, lines 261-267: only `grub` and `systemd-stub` are dispatched and
there is no else branch at all — an unrecognized mechanism tag is silently
ignored and the process exits 0. -/
def dispatch_boot_v1 (mech kernel cmdline : String) (s : SysState) :
    DispatchResult :=
  if s.espDir.isSome then ⟨s, [], 0⟩
  else
    match mech with
    | "grub" => buildOutcome s (build_esp_grub_v1 kernel cmdline s)
    | "systemd-stub" => buildOutcome s (build_esp_systemd_stub_v1 kernel cmdline s)
    | _ => ⟨s, [], 0⟩

/-! ## EfiBootGuard partition layout (v2 lines 356-378)

The Python computation uses floats; it is modelled with exact rational
arithmetic. -/

/-- `esp_size = 5`: percent of the image reserved for the ESP. -/
def esp_size : ℚ := 5

/-- `config_partition_size = (100.0 - esp_size) / num_slots`. -/
def config_partition_size (num_slots : ℕ) : ℚ := (100 - esp_size) / num_slots

/-- `partition_start = math.floor(esp_size + i * config_partition_size)` for
slot index `i = 0 .. num_slots - 1`, in percent. -/
def partition_start (num_slots i : ℕ) : ℤ :=
  ⌊esp_size + i * config_partition_size num_slots⌋

/-- `partition_end = math.floor(partition_start + config_partition_size)`. -/
def partition_end (num_slots i : ℕ) : ℤ :=
  ⌊(partition_start num_slots i : ℚ) + config_partition_size num_slots⌋

/-! ## EfiBootGuard loop-device phase (v2 lines 380-430)

After `losetup -Pf` attaches the image, the function runs inside
`try: ... finally: losetup -D`.  Each externally observable step may raise a
Python exception (note `subprocess.call` does not raise on a nonzero tool
exit, in which case execution simply continues); the trace semantics below
records which steps run and whether an exception is propagating. -/

/-- The externally observable steps after the loop device is attached. -/
inductive EbgStep where
  | mkdtemp
  | mkfsEsp
  | mountEsp
  | mkdirEfiBoot
  | copyBootguard
  | umountEsp
  | mkfsSlot (slot : ℕ)
  | mountSlot (slot : ℕ)
  | writeLabel (slot : ℕ)
  | bgSetenv (slot : ℕ)
  | copyKernel (slot : ℕ)
  | copyInitrd (slot : ℕ)
  | umountSlot (slot : ℕ)
  | losetupDetach
deriving DecidableEq

/-- A partial execution: the steps performed and whether an exception is
propagating. -/
abbrev EbgRun := List EbgStep × Bool

/-- Perform one step; `raises` says which steps raise. -/
def ebgStep (raises : EbgStep → Bool) (e : EbgStep) : EbgRun := ([e], raises e)

/-- Sequential composition: the second part runs only when no exception is
propagating. -/
def ebgSeq (a b : EbgRun) : EbgRun :=
  if a.2 then a else (a.1 ++ b.1, b.2)

/-- `try: body finally: fin` — the finally part always runs, and an exception
from either part propagates afterwards. -/
def ebgTryFinally (body fin : EbgRun) : EbgRun :=
  (body.1 ++ fin.1, body.2 || fin.2)

/-- One slot iteration: mkfs and mount, then label write, `bg_setenv`, kernel
copy and initrd copy inside `try: ... finally: umount`. -/
def ebgSlot (raises : EbgStep → Bool) (slot : ℕ) : EbgRun :=
  ebgSeq (ebgStep raises (.mkfsSlot slot))
    (ebgSeq (ebgStep raises (.mountSlot slot))
      (ebgTryFinally
        (ebgSeq (ebgStep raises (.writeLabel slot))
          (ebgSeq (ebgStep raises (.bgSetenv slot))
            (ebgSeq (ebgStep raises (.copyKernel slot))
              (ebgStep raises (.copyInitrd slot)))))
        (ebgStep raises (.umountSlot slot))))

/-- The ESP phase: mkdtemp, mkfs, mount, then the EFI/BOOT population inside
`try: ... finally: umount`. -/
def ebgEspPhase (raises : EbgStep → Bool) : EbgRun :=
  ebgSeq (ebgStep raises .mkdtemp)
    (ebgSeq (ebgStep raises .mkfsEsp)
      (ebgSeq (ebgStep raises .mountEsp)
        (ebgTryFinally
          (ebgSeq (ebgStep raises .mkdirEfiBoot) (ebgStep raises .copyBootguard))
          (ebgStep raises .umountEsp))))

/-- The whole post-attach phase: the ESP phase and the per-slot loop
(`for slot_num in range(1, 1 + num_slots)`) inside the outer try, with
`losetup -D` in the outer finally. -/
def ebgPostAttach (raises : EbgStep → Bool) (numSlots : ℕ) : EbgRun :=
  ebgTryFinally
    ((List.range numSlots).foldl (fun acc i => ebgSeq acc (ebgSlot raises (i + 1)))
      (ebgEspPhase raises))
    (ebgStep raises .losetupDetach)

/-! ## `fetch_file` (v2 lines 94-115; textually identical in v1) -/

/-- The result of `urllib.parse.urlparse` (an external collaborator). -/
structure Url where
  scheme : String
  netloc : String
  path : String
deriving DecidableEq

/-- The package cache directory `.cache/packages`, keyed by filename. -/
structure PkgCache where
  files : List (String × String)

/-- `fetch_file(url, filename=None)`: derive the cache filename from the URL
path's basename when none is given; return the cached file with no download
when a file of that name exists; otherwise download (`net` is the external
HTTP collaborator) into the cache.  Result: the destination filename inside
`PKG_DIR`, the updated cache, and whether a download happened. -/
def fetch_file (net : Url → String) (cache : PkgCache) (url : Url)
    (filename : Option String) : String × PkgCache × Bool :=
  let fname := match filename with
    | some f => f
    | none => basenameStr url.path
  match assocLookup cache.files fname with
  | some _ => (fname, cache, false)
  | none => (fname, ⟨cache.files ++ [(fname, net url)]⟩, true)

/-! ## Concrete inputs used by the counterexamples and witnesses -/

/-- An empty initial on-disk state (fresh `.cache`). -/
def emptyState : SysState := ⟨FTree.dir [], none, none, none⟩

/-- A small configuration: one base file, one package, one overlay. -/
def cfgDemo : Config :=
  { base := [(["hello"], "hi")],
    pkgs := [⟨"pkg1", [(["bin"], "b")]⟩],
    overlays := [FTree.dir [("etc", FTree.dir [("motd", FTree.file "m")])]] }

/-- The state left behind by a first successful run of `cfgDemo`. -/
def stateAfterDemo : SysState := (runPipelineV2 cfgDemo true emptyState).state

/-- A state whose initramfs pack lock marker is present (a previous pack
crashed) while the packed archive file exists. -/
def stateWithLock : SysState :=
  ⟨FTree.dir [(markerDirName, FTree.dir [(".initramfs", FTree.file "")])],
    some "x", none, none⟩

/-- A staged rootfs whose top level agrees with the overlay below. -/
def rootfsAgree : FTree :=
  FTree.dir [("a", FTree.file "x"), (markerDirName, FTree.dir [])]

/-- An overlay whose only entry agrees with `rootfsAgree`. -/
def overlayAgree : FTree := FTree.dir [("a", FTree.file "x")]

/-- A staged state that contains every file the v2 systemd-stub assembly
reads — kernel, os-release, stub binary — and a packed initramfs, but whose
`systemd` installation marker is absent. -/
def stateStubNoMarker : SysState :=
  { rootfs := FTree.dir
      [("vmlinuz", FTree.file "KERNELDATA"),
       ("etc", FTree.dir [("os-release", FTree.file "NAME=MinOS")]),
       ("lib", FTree.dir
         [("systemd", FTree.dir
           [("boot", FTree.dir
             [("efi", FTree.dir
               [("linuxaa64.efi.stub", FTree.file "STUB")])])])]),
       (markerDirName, FTree.dir [(".base", FTree.file "")])],
    initrd := some "CPIODATA", espDir := none, espImg := none }

/-- First URL of the `fetch_file` witness. -/
def urlA : Url := ⟨"https", "a.example", "/pool/x/pkg.deb"⟩

/-- Second URL of the `fetch_file` witness: a different URL whose path ends in
the same basename. -/
def urlB : Url := ⟨"https", "b.example", "/other/pkg.deb"⟩

/-! ## Basic lemmas about the filesystem model -/

theorem assocLookup_setEntry_self {α : Type} (es : List (String × α))
    (n : String) (v : α) : assocLookup (setEntry es n v) n = some v := by
  induction es with
  | nil => simp [setEntry, assocLookup]
  | cons e rest ih =>
      by_cases h : e.1 = n
      · simp [setEntry, h, assocLookup]
      · simpa [setEntry, h, assocLookup] using ih

theorem assocLookup_setEntry_ne {α : Type} (es : List (String × α))
    (a n : String) (v : α) (h : a ≠ n) :
    assocLookup (setEntry es a v) n = assocLookup es n := by
  have hna : ¬n = a := fun hh => h hh.symm
  induction es with
  | nil => simp [setEntry, assocLookup, h]
  | cons e rest ih =>
      obtain ⟨k, w⟩ := e
      by_cases he : k = a
      · subst he
        simp [setEntry, assocLookup, h]
      · by_cases hn : k = n
        · subst hn
          simp [setEntry, he, assocLookup]
        · simp [setEntry, he, assocLookup, hn, ih]

theorem setEntry_eq_of_lookup {α : Type} (es : List (String × α))
    (n : String) (v : α) (h : assocLookup es n = some v) :
    setEntry es n v = es := by
  induction es with
  | nil => simp [assocLookup] at h
  | cons e rest ih =>
      by_cases he : e.1 = n
      · obtain ⟨k, w⟩ := e
        simp_all [assocLookup, setEntry]
      · obtain ⟨k, w⟩ := e
        simp_all [assocLookup, setEntry]

theorem setEntry_setEntry {α : Type} (es : List (String × α)) (n : String)
    (v w : α) : setEntry (setEntry es n v) n w = setEntry es n w := by
  induction es with
  | nil => simp [setEntry]
  | cons e rest ih =>
      by_cases he : e.1 = n
      · obtain ⟨k, x⟩ := e; simp_all [setEntry]
      · obtain ⟨k, x⟩ := e
        simp only [setEntry, if_neg he] at *
        simp [ih]

theorem setEntry_of_lookup_none {α : Type} (es : List (String × α))
    (n : String) (v : α) (h : assocLookup es n = none) :
    setEntry es n v = es ++ [(n, v)] := by
  induction es with
  | nil => simp [setEntry]
  | cons e rest ih =>
      by_cases he : e.1 = n
      · simp [assocLookup, he] at h
      · obtain ⟨k, w⟩ := e
        simp only [assocLookup, if_pos, if_neg he] at h
        simp_all [setEntry]

theorem assocLookup_removeEntry_self {α : Type} (es : List (String × α))
    (n : String) : assocLookup (removeEntry es n) n = none := by
  induction es with
  | nil => simp [removeEntry, assocLookup]
  | cons e rest ih =>
      by_cases he : e.1 = n
      · simpa [removeEntry, he] using ih
      · simpa [removeEntry, List.filter, he, assocLookup] using ih

theorem assocLookup_none_iff {α : Type} (es : List (String × α))
    (n : String) : assocLookup es n = none ↔ ∀ e ∈ es, e.1 ≠ n := by
  induction es with
  | nil => simp [assocLookup]
  | cons e rest ih =>
      obtain ⟨k, w⟩ := e
      by_cases hk : k = n
      · subst hk; simp [assocLookup]
      · simp [assocLookup, hk, ih]

theorem removeEntry_eq_of_lookup_none {α : Type} (es : List (String × α))
    (n : String) (h : assocLookup es n = none) : removeEntry es n = es := by
  have hall := (assocLookup_none_iff es n).mp h
  simp only [removeEntry]
  rw [List.filter_eq_self]
  intro e he
  simpa using hall e he

theorem removeEntry_append {α : Type} (es fs : List (String × α))
    (n : String) :
    removeEntry (es ++ fs) n = removeEntry es n ++ removeEntry fs n := by
  simp [removeEntry, List.filter_append]

/-- Inversion for a file found under a two-component path. -/
theorem isFilePath_pair_inv (t : FTree) (m n : String)
    (h : isFilePath t [m, n] = true) :
    ∃ es es2 c, t = .dir es ∧ assocLookup es m = some (.dir es2) ∧
      assocLookup es2 n = some (.file c) := by
  match t with
  | .file c => simp [isFilePath, lookupPath] at h
  | .dir es =>
      refine ⟨es, ?_⟩
      simp only [isFilePath, lookupPath] at h
      match hm : assocLookup es m with
      | none => rw [hm] at h; simp at h
      | some (.file c) => rw [hm] at h; simp [lookupPath] at h
      | some (.dir es2) =>
          rw [hm] at h
          simp only [lookupPath] at h
          match hn : assocLookup es2 n with
          | none => rw [hn] at h; simp at h
          | some (.dir es3) => rw [hn] at h; simp [lookupPath] at h
          | some (.file c) => exact ⟨es2, c, rfl, rfl, hn⟩

/-- `makedirs` of a single directory that already has an entry (of any kind)
is the identity. -/
theorem ensureDirs_single_of_present (es : List (String × FTree)) (m : String)
    (c : FTree) (h : assocLookup es m = some c) :
    ensureDirs [m] (.dir es) = .dir es := by
  simp only [ensureDirs, entriesOf, h, setEntry_eq_of_lookup es m c h]

/-- Creating an absent file and then unlinking it restores the tree exactly. -/
theorem touch_remove_cancel (es es2 : List (String × FTree)) (m n : String)
    (h1 : assocLookup es m = some (.dir es2))
    (h2 : assocLookup es2 n = none) :
    removePath [m, n] (touchFile [m, n] (.dir es)) = .dir es := by
  have hfile : isFilePath (.dir es) [m, n] = false := by
    simp [isFilePath, lookupPath, h1, h2]
  simp only [touchFile, hfile, Bool.false_eq_true, if_false]
  simp only [writePath, entriesOf, h1]
  rw [setEntry_of_lookup_none es2 n _ h2]
  simp only [removePath, assocLookup_setEntry_self]
  rw [setEntry_setEntry]
  rw [removeEntry_append, removeEntry_eq_of_lookup_none es2 n h2]
  have hrm : removeEntry [(n, FTree.file "")] n = ([] : List (String × FTree)) := by
    simp [removeEntry]
  rw [hrm, List.append_nil]
  rw [setEntry_eq_of_lookup es m (.dir es2) h1]

theorem assocLookup_append_of_none {α : Type} (es : List (String × α))
    (n : String) (v : α) (h : assocLookup es n = none) :
    assocLookup (es ++ [(n, v)]) n = some v := by
  induction es with
  | nil => simp [assocLookup]
  | cons e rest ih =>
      obtain ⟨k, w⟩ := e
      by_cases hk : k = n
      · simp [assocLookup, hk] at h
      · simp only [List.cons_append, assocLookup, if_neg hk] at h ⊢
        exact ih h

theorem isFilePath_of_lookup_none (t : FTree) (p : List String)
    (h : lookupPath p t = none) : isFilePath t p = false := by
  simp [isFilePath, h]

/-- Writing a file at a two-component path makes it a file there. -/
theorem isFilePath_writePath_pair_self (m n c : String) (t : FTree) :
    isFilePath (writePath [m, n] (FTree.file c) t) [m, n] = true := by
  cases hm : assocLookup (entriesOf t) m with
  | none =>
      simp [writePath, hm, isFilePath, lookupPath, assocLookup_setEntry_self]
  | some child =>
      simp [writePath, hm, isFilePath, lookupPath, assocLookup_setEntry_self]

/-- After a touch at a two-component path, the file is there. -/
theorem isFilePath_touch_self (m n : String) (t : FTree) :
    isFilePath (touchFile [m, n] t) [m, n] = true := by
  unfold touchFile
  by_cases ht : isFilePath t [m, n]
  · simp [ht]
  · simp [ht, isFilePath_writePath_pair_self]

/-- After a removal at a two-component path, no file is there. -/
theorem isFilePath_removePath_pair (m n : String) (t : FTree) :
    isFilePath (removePath [m, n] t) [m, n] = false := by
  match t with
  | .file c => simp [removePath, isFilePath, lookupPath]
  | .dir es =>
      cases hm : assocLookup es m with
      | none => simp [removePath, hm, isFilePath, lookupPath]
      | some c =>
          cases c with
          | file cc =>
              simp [removePath, hm, isFilePath, lookupPath,
                assocLookup_setEntry_self]
          | dir es2 =>
              simp [removePath, hm, isFilePath, lookupPath,
                assocLookup_setEntry_self, assocLookup_removeEntry_self]

/-- A write whose path starts away from `m` does not affect what is at
`[m, n]`. -/
theorem isFilePath_writePath_head_ne (a : String) (p : List String) (v t : FTree)
    (m n : String) (h : a ≠ m) :
    isFilePath (writePath (a :: p) v t) [m, n] = isFilePath t [m, n] := by
  match t with
  | .file c =>
      simp [writePath, entriesOf, isFilePath, lookupPath, setEntry,
        assocLookup, h]
  | .dir es =>
      simp only [writePath, entriesOf, isFilePath, lookupPath]
      rw [assocLookup_setEntry_ne es a m _ h]

/-- A write at `[m, k]` with `k ≠ n` does not affect what is at `[m, n]`. -/
theorem isFilePath_writePath_pair_ne (m k : String) (v t : FTree)
    (n : String) (hk : k ≠ n) :
    isFilePath (writePath [m, k] v t) [m, n] = isFilePath t [m, n] := by
  match t with
  | .file c =>
      simp [writePath, entriesOf, isFilePath, lookupPath, setEntry,
        assocLookup, assocLookup_setEntry_ne _ k n _ hk, hk]
  | .dir es =>
      cases hm : assocLookup es m with
      | none =>
          simp [writePath, entriesOf, hm, isFilePath, lookupPath,
            assocLookup_setEntry_self, setEntry,
            assocLookup_setEntry_ne _ k n _ hk, assocLookup, hk]
      | some child =>
          cases child with
          | file cc =>
              simp [writePath, entriesOf, hm, isFilePath, lookupPath,
                assocLookup_setEntry_self, setEntry,
                assocLookup_setEntry_ne _ k n _ hk, assocLookup, hk]
          | dir es2 =>
              simp [writePath, entriesOf, hm, isFilePath, lookupPath,
                assocLookup_setEntry_self,
                assocLookup_setEntry_ne _ k n _ hk, hk]

/-- A touch at `[m, k]` with `k ≠ n` does not affect what is at `[m, n]`. -/
theorem isFilePath_touch_pair_ne (m k : String) (t : FTree) (n : String)
    (hk : k ≠ n) :
    isFilePath (touchFile [m, k] t) [m, n] = isFilePath t [m, n] := by
  unfold touchFile
  by_cases ht : isFilePath t [m, k]
  · simp [ht]
  · simp [ht, isFilePath_writePath_pair_ne m k _ t n hk]

/-- `makedirs` of a single directory does not affect what is at `[m, n]`. -/
theorem isFilePath_ensureDirs_single (m : String) (t : FTree) (n : String) :
    isFilePath (ensureDirs [m] t) [m, n] = isFilePath t [m, n] := by
  match t with
  | .file c =>
      simp [ensureDirs, entriesOf, isFilePath, lookupPath, setEntry, assocLookup]
  | .dir es =>
      cases hm : assocLookup es m with
      | some c => rw [ensureDirs_single_of_present es m c hm]
      | none =>
          simp only [ensureDirs, entriesOf, hm, isFilePath, lookupPath]
          rw [setEntry_of_lookup_none es m _ hm,
            assocLookup_append_of_none es m _ hm]
          simp [hm, lookupPath, assocLookup]

/-- Merging entries with keys away from `m` does not affect entry `m`. -/
theorem assocLookup_mergeInto_ne (des ses : List (String × FTree)) (m : String)
    (h : ∀ e ∈ ses, e.1 ≠ m) :
    assocLookup (mergeInto des ses) m = assocLookup des m := by
  induction ses generalizing des with
  | nil => simp [mergeInto]
  | cons e rest ih =>
      obtain ⟨a, st⟩ := e
      have ha : a ≠ m := by simpa using h (a, st) (by simp)
      simp only [mergeInto]
      cases hd : assocLookup des a <;>
        rw [ih _ fun e he => h e (List.mem_cons_of_mem _ he)] <;>
          exact assocLookup_setEntry_ne des a m _ ha

/-- Merging a benign overlay does not affect what is under the marker
directory. -/
theorem isFilePath_mergeTree_benign (t ov : FTree)
    (hov : benignOverlay ov = true) (n : String) :
    isFilePath (mergeTree t ov) [markerDirName, n] =
      isFilePath t [markerDirName, n] := by
  match ov with
  | .file c => simp [benignOverlay] at hov
  | .dir ses =>
      have hall : ses.all (fun e => e.1 != markerDirName) = true := by
        simpa [benignOverlay] using hov
      have hs : ∀ e ∈ ses, e.1 ≠ markerDirName := by
        intro e he
        simpa using List.all_eq_true.mp hall e he
      show isFilePath (.dir (mergeInto (entriesOf t) ses)) _ = _
      simp only [isFilePath, lookupPath, assocLookup_mergeInto_ne _ _ _ hs]
      match t with
      | .file c => simp [entriesOf, assocLookup, lookupPath]
      | .dir es => rfl

/-! ## Stage-level lemmas -/

/-- Extracting benign archive members does not affect what is under the marker
directory. -/
theorem isFilePath_extractWrites (members : List (List String × String))
    (t : FTree) (n : String) (hb : benignMembers members = true) :
    isFilePath
        (members.foldl (fun acc mem => writePath mem.1 (FTree.file mem.2) acc) t)
        [markerDirName, n] =
      isFilePath t [markerDirName, n] := by
  induction members generalizing t with
  | nil => simp
  | cons mem rest ih =>
      have hb2 : (benignPath mem.1 && benignMembers rest) = true := hb
      rw [Bool.and_eq_true] at hb2
      obtain ⟨hmem, hrest⟩ := hb2
      match hp : mem.1 with
      | [] => rw [hp] at hmem; simp [benignPath] at hmem
      | a :: p =>
          have ha : a ≠ markerDirName := by
            rw [hp] at hmem
            simp only [benignPath, Bool.and_eq_true, bne_iff_ne,
              List.headD_cons] at hmem
            exact hmem.2
          simp only [List.foldl_cons, hp]
          rw [ih _ hrest,
            isFilePath_writePath_head_ne a p _ t markerDirName n ha]

/-- v2 `extract_rootfs` leaves everything under the marker directory other
than the `.base` marker unchanged, for benign base archives. -/
theorem isFilePath_extract_rootfs (members : List (List String × String))
    (t : FTree) (n : String) (hb : benignMembers members = true)
    (hn : n ≠ ".base") :
    isFilePath (extract_rootfs members t).1 [markerDirName, n] =
      isFilePath t [markerDirName, n] := by
  unfold extract_rootfs
  by_cases hmark : isFilePath (ensureDirs [markerDirName] t) baseMarkerPath
  · simp only [hmark, if_true]
    exact isFilePath_ensureDirs_single markerDirName t n
  · simp only [hmark, Bool.false_eq_true, if_false]
    rw [show baseMarkerPath = [markerDirName, ".base"] from rfl,
      isFilePath_touch_pair_ne markerDirName ".base" _ n fun hh => hn hh.symm,
      isFilePath_extractWrites _ _ _ hb,
      isFilePath_ensureDirs_single markerDirName t n]

/-- v2 `install_package` leaves everything under the marker directory other
than its own marker unchanged, for benign packages. -/
theorem isFilePath_install_package (p : Package) (t : FTree) (n : String)
    (hb : benignMembers p.members = true) (hn : p.name ≠ n) :
    isFilePath (install_package p t).1 [markerDirName, n] =
      isFilePath t [markerDirName, n] := by
  unfold install_package
  by_cases hmark : isFilePath (ensureDirs [markerDirName] t) [markerDirName, p.name]
  · simp only [hmark, if_true]
    exact isFilePath_ensureDirs_single markerDirName t n
  · simp only [hmark, Bool.false_eq_true, if_false]
    rw [isFilePath_touch_pair_ne markerDirName p.name _ n hn,
      isFilePath_extractWrites _ _ _ hb,
      isFilePath_ensureDirs_single markerDirName t n]

/-- The package-install loop leaves the lock marker unchanged, for benign
packages. -/
theorem isFilePath_foldl_installStep (pkgs : List Package) (t : FTree) (b : Bool)
    (hb : ∀ p ∈ pkgs, benignMembers p.members = true ∧ p.name ≠ ".initramfs") :
    isFilePath (pkgs.foldl installStep (t, b)).1 lockPath =
      isFilePath t lockPath := by
  induction pkgs generalizing t b with
  | nil => simp
  | cons p rest ih =>
      have hp := hb p (by simp)
      simp only [List.foldl_cons, installStep]
      rw [ih _ _ fun q hq => hb q (List.mem_cons_of_mem _ hq)]
      exact isFilePath_install_package p t ".initramfs" hp.1 hp.2

/-- Merging benign overlays leaves what is under the marker directory
unchanged. -/
theorem isFilePath_foldl_mergeTree (overlays : List FTree) (t : FTree)
    (n : String) (hb : ∀ ov ∈ overlays, benignOverlay ov = true) :
    isFilePath (overlays.foldl mergeTree t) [markerDirName, n] =
      isFilePath t [markerDirName, n] := by
  induction overlays generalizing t with
  | nil => simp
  | cons ov rest ih =>
      simp only [List.foldl_cons]
      rw [ih _ fun o ho => hb o (List.mem_cons_of_mem _ ho),
        isFilePath_mergeTree_benign t ov (hb ov (by simp)) n]

/-- The overlay loop is an unconditional fold of `mergeTree`, and it reports a
change exactly when at least one overlay is configured. -/
theorem foldl_overlayStep (overlays : List FTree) (t : FTree) (b : Bool) :
    overlays.foldl overlayStep (t, b) =
      (overlays.foldl mergeTree t, b || !overlays.isEmpty) := by
  induction overlays generalizing t b with
  | nil => simp
  | cons ov rest ih =>
      simp only [List.foldl_cons, overlayStep, copy_overlay_v2]
      rw [ih]
      simp

/-- `runOverlays` specification. -/
theorem runOverlays_spec (overlays : List FTree) (t : FTree) :
    runOverlays overlays t = (overlays.foldl mergeTree t, !overlays.isEmpty) := by
  simpa using foldl_overlayStep overlays t false

/-- The staging stages leave the lock marker status unchanged for benign
configurations. -/
theorem runStages_lock (cfg : Config) (t : FTree) (hb : BenignCfg cfg) :
    isFilePath (runStages cfg t).1 lockPath = isFilePath t lockPath := by
  obtain ⟨hbase, hpkgs, hovs⟩ := hb
  simp only [runStages, runInstalls, runOverlays_spec]
  rw [show lockPath = [markerDirName, ".initramfs"] from rfl]
  rw [isFilePath_foldl_mergeTree _ _ _ hovs]
  have h2 := isFilePath_foldl_installStep cfg.pkgs (extract_rootfs cfg.base t).1
    false hpkgs
  rw [show lockPath = [markerDirName, ".initramfs"] from rfl] at h2
  rw [h2]
  exact isFilePath_extract_rootfs cfg.base t ".initramfs" hbase (by decide)

/-! ## Skip lemmas: stages on an already-complete state -/

/-- `extract_rootfs` with the base marker present changes nothing. -/
theorem extract_rootfs_skip (members : List (List String × String)) (t : FTree)
    (h : isFilePath t baseMarkerPath = true) :
    extract_rootfs members t = (t, false) := by
  obtain ⟨es, es2, c, hts, hm, hn⟩ :=
    isFilePath_pair_inv t markerDirName ".base" h
  subst hts
  unfold extract_rootfs
  rw [ensureDirs_single_of_present es markerDirName _ hm]
  simp [h]

/-- `install_package` with the package marker present changes nothing. -/
theorem install_package_skip (p : Package) (t : FTree)
    (h : isFilePath t [markerDirName, p.name] = true) :
    install_package p t = (t, false) := by
  obtain ⟨es, es2, c, hts, hm, hn⟩ :=
    isFilePath_pair_inv t markerDirName p.name h
  subst hts
  unfold install_package
  rw [ensureDirs_single_of_present es markerDirName _ hm]
  simp [h]

/-- The install loop with every marker present changes nothing. -/
theorem foldl_installStep_skip (pkgs : List Package) (t : FTree) (b : Bool)
    (h : ∀ p ∈ pkgs, isFilePath t [markerDirName, p.name] = true) :
    pkgs.foldl installStep (t, b) = (t, b) := by
  induction pkgs generalizing b with
  | nil => rfl
  | cons p rest ih =>
      simp only [List.foldl_cons, installStep,
        install_package_skip p t (h p (by simp))]
      simpa using ih b fun q hq => h q (List.mem_cons_of_mem _ hq)

/-- On a state where the base is extracted, every package marker is present
and the overlays are already absorbed by the tree, the staging stages return
the tree unchanged, reporting a change exactly when overlays are
configured. -/
theorem runStages_second_run (cfg : Config) (t : FTree)
    (h1 : isFilePath t baseMarkerPath = true)
    (h2 : ∀ p ∈ cfg.pkgs, isFilePath t [markerDirName, p.name] = true)
    (h3 : cfg.overlays.foldl mergeTree t = t) :
    runStages cfg t = (t, !cfg.overlays.isEmpty) := by
  have e1 : extract_rootfs cfg.base t = (t, false) :=
    extract_rootfs_skip cfg.base t h1
  have e2 : cfg.pkgs.foldl installStep (t, false) = (t, false) :=
    foldl_installStep_skip cfg.pkgs t false h2
  simp [runStages, runInstalls, e1, e2, runOverlays_spec, h3]

/-! ## Pipeline-level helper lemmas -/

/-- `changed` reported by the pipeline is the OR across the stages, whether or
not a repack happens. -/
theorem runPipelineV2_changed (cfg : Config) (ok : Bool) (s : SysState) :
    (runPipelineV2 cfg ok s).changed = (runStages cfg s.rootfs).2 := by
  cases hc : ((runStages cfg s.rootfs).2 ||
      is_initramfs_pack_incomplete { s with rootfs := (runStages cfg s.rootfs).1 }) <;>
    simp [runPipelineV2, hc]

/-- The pipeline invokes `pack_initramfs` exactly when a stage changed the
tree, the lock marker was present at the start of the run, or the archive file
was missing at the start of the run (for benign configurations the stages
cannot fabricate or destroy the lock marker, and no stage touches the archive
file, which lives outside the rootfs). -/
theorem runPipelineV2_packed (cfg : Config) (ok : Bool) (s : SysState)
    (hb : BenignCfg cfg) :
    (runPipelineV2 cfg ok s).packed =
      ((runStages cfg s.rootfs).2 ||
        (isFilePath s.rootfs lockPath || s.initrd.isNone)) := by
  have hinc : is_initramfs_pack_incomplete
      { s with rootfs := (runStages cfg s.rootfs).1 } =
      (isFilePath s.rootfs lockPath || s.initrd.isNone) := by
    simp [is_initramfs_pack_incomplete, runStages_lock cfg s.rootfs hb]
  rw [← hinc]
  cases hc : ((runStages cfg s.rootfs).2 ||
      is_initramfs_pack_incomplete { s with rootfs := (runStages cfg s.rootfs).1 }) <;>
    simp [runPipelineV2, hc]

/-! ## Claim theorems -/

/-- **C1**, counterexample.  With the demo configuration (which lists one
overlay), a second pipeline run over the state produced by the first run
reports `changed = true`, not `false` as the claim states: the v2
`copy_overlay` unconditionally re-copies every overlay. -/
theorem c1_counterexample :
    (runPipelineV2 cfgDemo true stateAfterDemo).changed = true := by rfl

/-- **C1**, amended.  On any state that a completed first run leaves behind —
base marker present, every configured package's marker present, overlays
already absorbed by the tree, no stale pack lock, packed archive present —
a further v2 pipeline run leaves the staged rootfs tree byte-identical, and
reports `changed = false` exactly when the configuration lists no overlays
(each configured overlay is unconditionally re-copied and reported as a
change). -/
theorem c1_idempotence_amended (cfg : Config) (s : SysState)
    (h1 : isFilePath s.rootfs baseMarkerPath = true)
    (h2 : ∀ p ∈ cfg.pkgs, isFilePath s.rootfs [markerDirName, p.name] = true)
    (h3 : cfg.overlays.foldl mergeTree s.rootfs = s.rootfs)
    (h4 : lookupPath lockPath s.rootfs = none)
    (h5 : s.initrd.isSome = true) :
    (runPipelineV2 cfg true s).state.rootfs = s.rootfs ∧
      (runPipelineV2 cfg true s).changed = !cfg.overlays.isEmpty := by
  have hst := runStages_second_run cfg s.rootfs h1 h2 h3
  have hlockF : isFilePath s.rootfs lockPath = false :=
    isFilePath_of_lookup_none _ _ h4
  have hs3 : ({ s with rootfs := s.rootfs } : SysState) = s := rfl
  have hincomplete : is_initramfs_pack_incomplete s = false := by
    cases hi : s.initrd with
    | none => rw [hi] at h5; simp at h5
    | some v => simp [is_initramfs_pack_incomplete, hlockF, hi]
  obtain ⟨es, es2, c, hts, hm, hbm⟩ :=
    isFilePath_pair_inv s.rootfs markerDirName ".base"
      (by simpa [baseMarkerPath] using h1)
  have hn2 : assocLookup es2 ".initramfs" = none := by
    rw [hts] at h4
    simp only [lockPath, lookupPath, hm] at h4
    cases hnn : assocLookup es2 ".initramfs" with
    | none => rfl
    | some cc => rw [hnn] at h4; simp [lookupPath] at h4
  have hcancel : removePath lockPath (touchFile lockPath s.rootfs) = s.rootfs := by
    rw [hts]
    exact touch_remove_cancel es es2 markerDirName ".initramfs" hm hn2
  simp only [runPipelineV2, hst, hs3]
  cases ho : cfg.overlays.isEmpty with
  | true =>
      simp [hincomplete, hs3]
  | false =>
      simp [hincomplete, hs3, pack_initramfs, run_depmod, hcancel]

/-- **C2**, counterexample.  An overlay whose single entry agrees byte-for-byte
with the staged rootfs: the claim says `copy_overlay` reports no change, but
the v2 `copy_overlay` copies anyway and returns `true`. -/
theorem c2_counterexample :
    overlayAgrees overlayAgree rootfsAgree ∧
      (copy_overlay_v2 rootfsAgree overlayAgree).2 = true :=
  ⟨by decide, rfl⟩

/-- v1 `copy_overlay` copies precisely when the dircmp-style agreement fails. -/
theorem overlayAgrees_iff (overlay rootfs : FTree) :
    overlayAgrees overlay rootfs ↔
      (dircmpDiffFiles overlay rootfs = [] ∧
        topNames overlay = dircmpCommonFiles overlay rootfs) := by
  constructor
  · intro h
    have hcf : dircmpCommonFiles overlay rootfs = topNames overlay := by
      apply List.filter_eq_self.mpr
      intro n hn
      have hh := h n hn
      simp [hh.1, hh.2.1]
    refine ⟨?_, hcf.symm⟩
    apply List.filter_eq_nil_iff.mpr
    intro n hn
    rw [hcf] at hn
    have hh := h n hn
    simp [hh.2.2]
  · rintro ⟨hdiff, hcf⟩ n hn
    have hnc : n ∈ dircmpCommonFiles overlay rootfs := hcf ▸ hn
    have hpred : (topIsFile overlay n && topIsFile rootfs n) = true := by
      have hnc2 : n ∈ (topNames overlay).filter
          (fun q => topIsFile overlay q && topIsFile rootfs q) := hnc
      simpa using List.of_mem_filter hnc2
    rw [Bool.and_eq_true] at hpred
    refine ⟨hpred.1, hpred.2, ?_⟩
    by_contra hne
    have hmem : n ∈ dircmpDiffFiles overlay rootfs :=
      List.mem_filter.mpr ⟨hnc, by simpa using hne⟩
    simp [hdiff] at hmem

/-- **C2**, amended.  The v2 `copy_overlay` always copies the overlay tree
wholesale onto the rootfs (overlay files overwriting files at matching paths)
and returns `true`, agreement or not.  The v1 `copy_overlay` returns `false`
and leaves the destination untouched exactly when its top-level comparison
finds full agreement — every top-level overlay entry a regular file that
matches a top-level rootfs file by content — and otherwise copies wholesale
and returns `true` (differences below the top level, or subdirectories in the
overlay, make the comparison fail rather than succeed). -/
theorem c2_copy_overlay_amended (rootfs overlay : FTree) :
    copy_overlay_v2 rootfs overlay = (mergeTree rootfs overlay, true) ∧
      (overlayAgrees overlay rootfs →
        copy_overlay_v1 rootfs overlay = (rootfs, false)) ∧
      (¬overlayAgrees overlay rootfs →
        copy_overlay_v1 rootfs overlay = (mergeTree rootfs overlay, true)) := by
  refine ⟨rfl, ?_, ?_⟩
  · intro h
    rw [overlayAgrees_iff] at h
    simp [copy_overlay_v1, h.1, h.2]
  · intro h
    rw [overlayAgrees_iff] at h
    have hc : dircmpDiffFiles overlay rootfs ≠ [] ∨
        topNames overlay ≠ dircmpCommonFiles overlay rootfs := not_and_or.mp h
    rw [copy_overlay_v1, if_pos hc]

/-- **C2**, witness for the amended theorem at a concrete agreeing pair. -/
theorem c2_witness :
    copy_overlay_v1 rootfsAgree overlayAgree = (rootfsAgree, false) :=
  (c2_copy_overlay_amended rootfsAgree overlayAgree).2.1 (by decide)

/-- **C3**.  The run packs the initramfs whenever the lock marker is present
at process start or the archive file is missing at process start, regardless
of the `changed` flag; and when the lock is absent, the archive exists and no
stage changed the tree, `pack_initramfs` is not invoked. -/
theorem c3_pack_trigger (cfg : Config) (cpioOk : Bool) (s : SysState)
    (hb : BenignCfg cfg) :
    ((isFilePath s.rootfs lockPath = true ∨ s.initrd = none) →
        (runPipelineV2 cfg cpioOk s).packed = true) ∧
      (isFilePath s.rootfs lockPath = false → s.initrd ≠ none →
        (runPipelineV2 cfg cpioOk s).changed = false →
        (runPipelineV2 cfg cpioOk s).packed = false) := by
  have hp := runPipelineV2_packed cfg cpioOk s hb
  have hch := runPipelineV2_changed cfg cpioOk s
  constructor
  · intro h
    rw [hp]
    rcases h with h | h
    · simp [h]
    · simp [h]
  · intro hl hi hc
    rw [hch] at hc
    rw [hp, hc, hl]
    cases hv : s.initrd with
    | none => exact absurd hv hi
    | some v => simp

/-- **C3**, witness: a state with a stale lock marker and a present archive
triggers a repack. -/
theorem c3_witness : (runPipelineV2 cfgDemo true stateWithLock).packed = true :=
  (c3_pack_trigger cfgDemo true stateWithLock (by decide)).1 (Or.inl (by rfl))

/-- **C4**.  `pack_initramfs` touches the lock marker before running the
external cpio pipeline and unlinks it only after the pipeline succeeded: after
a failed pack the lock file is present (and the state is detected incomplete
by the next run), after a successful pack it is absent (and the state is
detected complete). -/
theorem c4_pack_lock (cpioOk : Bool) (s : SysState) :
    isFilePath (pack_initramfs cpioOk s).1.rootfs lockPath = !cpioOk ∧
      is_initramfs_pack_incomplete (pack_initramfs cpioOk s).1 = !cpioOk := by
  cases cpioOk with
  | false =>
      have ht : isFilePath (touchFile lockPath s.rootfs) lockPath = true :=
        isFilePath_touch_self markerDirName ".initramfs" s.rootfs
      exact ⟨ht, by simp [is_initramfs_pack_incomplete, pack_initramfs, ht]⟩
  | true =>
      have ht : isFilePath (removePath lockPath (touchFile lockPath s.rootfs))
          lockPath = false :=
        isFilePath_removePath_pair markerDirName ".initramfs" _
      exact ⟨ht, by simp [is_initramfs_pack_incomplete, pack_initramfs, ht]⟩

/-- **C1**, witness for the amended theorem: the state after a first demo run
satisfies every hypothesis, and a second run leaves the tree byte-identical
while reporting a change for the configured overlay. -/
theorem c1_witness :
    (runPipelineV2 cfgDemo true stateAfterDemo).state.rootfs =
        stateAfterDemo.rootfs ∧
      (runPipelineV2 cfgDemo true stateAfterDemo).changed =
        !cfgDemo.overlays.isEmpty :=
  c1_idempotence_amended cfgDemo stateAfterDemo (by rfl) (by decide) (by rfl)
    (by rfl) (by rfl)

/-- **C5**, counterexample.  With `N = 96` slots (the claim admits every
`N ≥ 1`), each slot's share is below one percent and the floored boundaries
collapse: slot 0 and slot 1 both start at 5, so the boundary sequence is not
strictly increasing. -/
theorem c5_counterexample :
    ¬partition_start 96 0 < partition_start 96 1 := by
  norm_num [partition_start, config_partition_size, esp_size]

/-- **C5**, amended.  The computed boundaries satisfy the claimed floor
formulas for every `N ≥ 1`, and the final slot's end never exceeds 100; the
strict increase of the boundary sequence (slot starts strictly increasing and
each slot nondegenerate) additionally needs `N ≤ 95`, i.e. at least one
percent per slot. -/
theorem c5_partition_layout_amended (n : ℕ) (hn : 1 ≤ n) :
    (∀ i : ℕ, partition_start n i = ⌊(5 : ℚ) + (i : ℚ) * (95 / (n : ℚ))⌋) ∧
      (∀ i : ℕ, partition_end n i =
        ⌊(partition_start n i : ℚ) + 95 / (n : ℚ)⌋) ∧
      (n ≤ 95 →
        (∀ i : ℕ, i + 1 < n →
          partition_start n i < partition_start n (i + 1)) ∧
        ∀ i : ℕ, i < n → partition_start n i < partition_end n i) ∧
      partition_end n (n - 1) ≤ 100 := by
  have hn0 : (0 : ℚ) < (n : ℚ) := by exact_mod_cast hn
  have hq : config_partition_size n = 95 / (n : ℚ) := by
    unfold config_partition_size esp_size
    norm_num
  have hstart : ∀ i : ℕ,
      partition_start n i = ⌊(5 : ℚ) + (i : ℚ) * (95 / (n : ℚ))⌋ := by
    intro i
    unfold partition_start esp_size
    rw [hq]
  have hend : ∀ i : ℕ,
      partition_end n i = ⌊(partition_start n i : ℚ) + 95 / (n : ℚ)⌋ := by
    intro i
    unfold partition_end
    rw [hq]
  refine ⟨hstart, hend, ?_, ?_⟩
  · intro h95
    have hc1 : (1 : ℚ) ≤ 95 / (n : ℚ) := by
      rw [one_le_div hn0]
      exact_mod_cast h95
    constructor
    · intro i hi
      rw [hstart i, hstart (i + 1)]
      have hcasteq : ((i + 1 : ℕ) : ℚ) = (i : ℚ) + 1 := by push_cast; ring
      rw [hcasteq]
      have hf : (⌊(5 : ℚ) + (i : ℚ) * (95 / (n : ℚ))⌋ : ℚ) ≤
          (5 : ℚ) + (i : ℚ) * (95 / (n : ℚ)) := Int.floor_le _
      have hle : (⌊(5 : ℚ) + (i : ℚ) * (95 / (n : ℚ))⌋ + 1 : ℤ) ≤
          ⌊(5 : ℚ) + ((i : ℚ) + 1) * (95 / (n : ℚ))⌋ := by
        rw [Int.le_floor]
        push_cast
        nlinarith [hc1, hf]
      omega
    · intro i hi
      rw [hend i]
      have hle : (partition_start n i + 1 : ℤ) ≤
          ⌊(partition_start n i : ℚ) + 95 / (n : ℚ)⌋ := by
        rw [Int.le_floor]
        push_cast
        linarith [hc1]
      omega
  · rw [hend (n - 1), hstart (n - 1)]
    have hne : (n : ℚ) ≠ 0 := ne_of_gt hn0
    have hcast : (((n - 1 : ℕ)) : ℚ) = (n : ℚ) - 1 := by
      push_cast [Nat.cast_sub hn]
      ring
    rw [hcast]
    have hexp : ((n : ℚ) - 1) * (95 / (n : ℚ)) = 95 - 95 / (n : ℚ) := by
      field_simp
      ring
    have hf2 : (⌊(5 : ℚ) + ((n : ℚ) - 1) * (95 / (n : ℚ))⌋ : ℚ) ≤
        (5 : ℚ) + (95 - 95 / (n : ℚ)) := by
      calc (⌊(5 : ℚ) + ((n : ℚ) - 1) * (95 / (n : ℚ))⌋ : ℚ)
          ≤ (5 : ℚ) + ((n : ℚ) - 1) * (95 / (n : ℚ)) := Int.floor_le _
        _ = (5 : ℚ) + (95 - 95 / (n : ℚ)) := by rw [hexp]
    have hx : (⌊(5 : ℚ) + ((n : ℚ) - 1) * (95 / (n : ℚ))⌋ : ℚ) +
        95 / (n : ℚ) ≤ 100 := by
      linarith
    calc ⌊(⌊(5 : ℚ) + ((n : ℚ) - 1) * (95 / (n : ℚ))⌋ : ℚ) + 95 / (n : ℚ)⌋
        ≤ ⌊(100 : ℚ)⌋ := Int.floor_le_floor hx
      _ = 100 := by norm_num

/-- **C5**, witness for the amended theorem at `N = 4`. -/
theorem c5_witness :
    partition_start 4 1 < partition_start 4 2 ∧
      partition_start 4 0 < partition_end 4 0 ∧ partition_end 4 3 ≤ 100 := by
  have h := c5_partition_layout_amended 4 (by norm_num)
  exact ⟨(h.2.2.1 (by norm_num)).1 1 (by norm_num),
    (h.2.2.1 (by norm_num)).2 0 (by norm_num), h.2.2.2⟩

/-- **C6**.  In the post-attach phase of the EfiBootGuard assembly, whatever
subset of the steps raises Python exceptions (and with any number of slots),
the `losetup -D` detach step is always in the executed trace, and it is the
last thing executed before any propagating error leaves the function. -/
theorem c6_loop_detach_always (raises : EbgStep → Bool) (numSlots : ℕ) :
    EbgStep.losetupDetach ∈ (ebgPostAttach raises numSlots).1 ∧
      (ebgPostAttach raises numSlots).1.getLast? = some EbgStep.losetupDetach := by
  unfold ebgPostAttach ebgTryFinally ebgStep
  exact ⟨List.mem_append_right _ (by simp), List.getLast?_concat _⟩

/-- **C7**, counterexample.  The v1 iteration's `objcopy` invocation embeds
five sections, not four: `.dtb` is also added, at 0x40000. -/
theorem c7_counterexample :
    addedSectionNames (objcopy_args_v1 "os-release" "cmdline.tmp" "kernel.tmp"
        "initrd.gz" "linuxaa64.efi.stub" "bootaa64.efi") =
      [".osrel", ".cmdline", ".dtb", ".linux", ".initrd"] ∧
      addedSectionNames (objcopy_args_v1 "os-release" "cmdline.tmp" "kernel.tmp"
          "initrd.gz" "linuxaa64.efi.stub" "bootaa64.efi") ≠
        [".osrel", ".cmdline", ".linux", ".initrd"] ∧
      sectionVma (objcopy_args_v1 "os-release" "cmdline.tmp" "kernel.tmp"
          "initrd.gz" "linuxaa64.efi.stub" "bootaa64.efi") ".dtb" =
        some 0x40000 := by
  refine ⟨by decide, by decide, by decide⟩

/-- **C7**, amended.  The v2 (`src/mincraft/mincraft.py`) systemd-stub
assembly embeds exactly the four sections `osrel`, `cmdline`, `linux`,
`initrd` at 0x20000, 0x30000, 0x2000000 and 0x3000000, and writes the result
to the firmware's boot path `efi/boot/boot{suffix}.efi` for the target
architecture; the v1 iteration additionally embeds a `.dtb` section at
0x40000 (five sections in total). -/
theorem c7_stub_sections_amended :
    addedSectionNames (objcopy_args_v2 "os-release" "cmdline.tmp" "kernel.tmp"
        "initrd.tmp" "linuxaa64.efi.stub" "bootaa64.efi") =
      [".osrel", ".cmdline", ".linux", ".initrd"] ∧
      sectionVma (objcopy_args_v2 "os-release" "cmdline.tmp" "kernel.tmp"
          "initrd.tmp" "linuxaa64.efi.stub" "bootaa64.efi") ".osrel" =
        some 0x20000 ∧
      sectionVma (objcopy_args_v2 "os-release" "cmdline.tmp" "kernel.tmp"
          "initrd.tmp" "linuxaa64.efi.stub" "bootaa64.efi") ".cmdline" =
        some 0x30000 ∧
      sectionVma (objcopy_args_v2 "os-release" "cmdline.tmp" "kernel.tmp"
          "initrd.tmp" "linuxaa64.efi.stub" "bootaa64.efi") ".linux" =
        some 0x2000000 ∧
      sectionVma (objcopy_args_v2 "os-release" "cmdline.tmp" "kernel.tmp"
          "initrd.tmp" "linuxaa64.efi.stub" "bootaa64.efi") ".initrd" =
        some 0x3000000 ∧
      stubDstPathV2 "arm64" = some ["efi", "boot", "bootaa64.efi"] ∧
      stubDstPathV2 "x86_64" = some ["efi", "boot", "bootx64.efi"] := by
  refine ⟨by decide, by decide, by decide, by decide, by decide, rfl, rfl⟩

/-- **C8**, counterexample.  A staged tree that holds every file the
systemd-stub assembly reads but no `systemd` installation marker: the v1
check reports the package missing, yet the v2 assembly runs to completion
without any package verification — the missing required package is not a
user-visible error there. -/
theorem c8_counterexample :
    require_packages stateStubNoMarker.rootfs ["systemd"] = ["systemd"] ∧
      ∃ s2, build_esp_systemd_stub_v2 "arm64" "vmlinuz" "quiet"
          stateStubNoMarker = .ok s2 :=
  ⟨by decide, ⟨_, rfl⟩⟩

/-- **C8**, amended.  In the v1 iteration both boot-assembly variants verify
their required companion package via its installation marker first and fail
with an error naming the missing packages (nonzero exit) before doing any
work; the v2 iteration's variants perform no such verification — no execution
of them can produce a missing-packages error. -/
theorem c8_require_packages_amended :
    (∀ (s : SysState) (k c : String),
        require_packages s.rootfs ["systemd"] ≠ [] →
          build_esp_systemd_stub_v1 k c s =
            .error (.missingPackages (require_packages s.rootfs ["systemd"]))) ∧
      (∀ (s : SysState) (k c : String),
          require_packages s.rootfs ["grub-efi-arm64-signed"] ≠ [] →
            build_esp_grub_v1 k c s =
              .error (.missingPackages
                (require_packages s.rootfs ["grub-efi-arm64-signed"]))) ∧
      (∀ (arch k c : String) (s : SysState) (pkgs : List String),
          build_esp_systemd_stub_v2 arch k c s ≠
            .error (.missingPackages pkgs)) ∧
      ∀ (arch k c : String) (s : SysState) (pkgs : List String),
        build_esp_grub_v2 arch k c s ≠ .error (.missingPackages pkgs) := by
  refine ⟨?_, ?_, ?_, ?_⟩
  · intro s k c h
    simp [build_esp_systemd_stub_v1, h]
  · intro s k c h
    simp [build_esp_grub_v1, h]
  · intro arch k c s pkgs h
    unfold build_esp_systemd_stub_v2 at h
    dsimp only at h
    repeat' split at h
    all_goals simp_all
  · intro arch k c s pkgs h
    unfold build_esp_grub_v2 at h
    dsimp only at h
    repeat' split at h
    all_goals simp_all

/-- **C8**, witness: the v1 assembly on the marker-less state aborts naming
`systemd`. -/
theorem c8_witness :
    build_esp_systemd_stub_v1 "vmlinuz" "quiet" stateStubNoMarker =
      .error (.missingPackages
        (require_packages stateStubNoMarker.rootfs ["systemd"])) :=
  c8_require_packages_amended.1 stateStubNoMarker "vmlinuz" "quiet" (by decide)

/-- **C9**.  Evaluating the boot dispatch at an unsupported mechanism tag:
the v2 iteration prints the diagnostic naming the offending tag to stderr but
returns normally, so the process exits 0 — not nonzero as the claim (and the
rest of the program's error handling) requires; the v1 iteration does not even
report it. -/
theorem c9_unsupported_mechanism_eval :
    dispatch_boot_v2 "u-boot" "arm64" "boot/vmlinuz" "console=ttyAMA0" true true
        emptyState =
      ⟨emptyState, [Diag.unsupportedBootMechanism "u-boot"], 0⟩ ∧
      dispatch_boot_v1 "u-boot" "boot/vmlinuz" "console=ttyAMA0" emptyState =
        ⟨emptyState, [], 0⟩ :=
  ⟨rfl, rfl⟩

/-- **C10**.  `fetch_file` derives the cache filename from the URL path's
basename when no filename is given; a cache hit returns the existing file
without downloading and leaves the cache unchanged; and fetching two different
URLs whose paths share a basename resolves both to the same cached file, the
second without any download. -/
theorem c10_fetch_cache (net : Url → String) (cache : PkgCache) (u1 u2 : Url)
    (hbase : basenameStr u1.path = basenameStr u2.path) :
    (fetch_file net cache u1 none).1 = basenameStr u1.path ∧
      (∀ v, assocLookup cache.files (basenameStr u1.path) = some v →
        fetch_file net cache u1 none = (basenameStr u1.path, cache, false)) ∧
      (fetch_file net (fetch_file net cache u1 none).2.1 u2 none).2.2 = false ∧
      (fetch_file net (fetch_file net cache u1 none).2.1 u2 none).1 =
        (fetch_file net cache u1 none).1 := by
  refine ⟨?_, ?_, ?_, ?_⟩
  · unfold fetch_file
    dsimp only
    cases hv : assocLookup cache.files (basenameStr u1.path) <;> simp [hv]
  · intro v hv
    simp [fetch_file, hv]
  · unfold fetch_file
    dsimp only
    rw [← hbase]
    cases hv : assocLookup cache.files (basenameStr u1.path) with
    | some w => simp [hv]
    | none =>
        simp [hv, assocLookup_append_of_none cache.files _ _ hv]
  · unfold fetch_file
    dsimp only
    rw [← hbase]
    cases hv : assocLookup cache.files (basenameStr u1.path) with
    | some w => simp [hv]
    | none =>
        simp [hv, assocLookup_append_of_none cache.files _ _ hv]

/-- **C10**, witness: two concrete URLs with different hosts and paths but the
same basename; the second fetch performs no download. -/
theorem c10_witness :
    (fetch_file (fun _ => "DATA")
        (fetch_file (fun _ => "DATA") ⟨[]⟩ urlA none).2.1 urlB none).2.2 =
      false :=
  (c10_fetch_cache (fun _ => "DATA") ⟨[]⟩ urlA urlB (by decide)).2.2.1

end Mincraft
